import Mathlib

/-!
# Verification of a read-only SQLite file reader

Shallow embedding of the reader's core functions (varint codec, pager
offsets, record/cell decoding, B-tree traversal, schema catalog, query
dispatch and row projection), translated from the Rust sources in
`src/`, together with theorems settling the specification claims.

Bytes are modelled as `Nat` (each `< 256` on real inputs), machine
integers as `Nat`/`Int` (the 64-bit accumulator of the varint decoder
never overflows: at most 8·7 + 8 = 64 bits are produced), fallible or
panicking code as `Option`.
-/

namespace SqliteReader

/-! ## Varint decoding (`parse_varint`, mod.rs:373-392)

The Rust loop iterates over at most the first 9 bytes, incrementing
`consumed` at each byte.  At index 8 it shifts the accumulator by 8 and
ors in the whole byte, then breaks; otherwise it shifts by 7, ors in the
low 7 bits, and breaks when the continuation bit (0x80) is clear.  If the
buffer runs out first, the accumulated value and count are returned as
they stand.  The function never fails. -/

def varintGo : List Nat → Nat → Nat → Nat → Nat × Nat
  | [], _, acc, consumed => (acc, consumed)
  | b :: rest, i, acc, consumed =>
    if i = 8 then
      ((acc <<< 8) ||| b, consumed + 1)
    else if b &&& 0x80 = 0 then ((acc <<< 7) ||| (b &&& 0x7f), consumed + 1)
    else varintGo rest (i + 1) ((acc <<< 7) ||| (b &&& 0x7f)) (consumed + 1)

/-- `parse_varint` of mod.rs:373-392: returns `(value, bytes_consumed)`. -/
def parse_varint (buf : List Nat) : Nat × Nat :=
  varintGo buf 0 0 0

/-! ## Pager (`SqliteReader::page`, mod.rs:106-120)

The Rust method takes a zero-based page argument.  For `page = 0` the
returned slice is `reader[100 .. page_size]`; for `page ≥ 1` it is
`reader[page*page_size .. (page+1)*page_size]`.  Two asserts bound the
slice inside the mapped file. -/

/-- Start and end offsets of the byte view returned by `page`
(mod.rs:108-112). -/
def page_bounds (page_size page : Nat) : Nat × Nat :=
  if page = 0 then (100, page_size)
  else (page * page_size, (page + 1) * page_size)

/-- The asserts of mod.rs:114-117: `start < len` and `end < len + 1`. -/
def page_valid (file_len page_size page : Nat) : Prop :=
  (page_bounds page_size page).1 < file_len ∧
    (page_bounds page_size page).2 < file_len + 1

/-- Length of the byte view returned by `page`. -/
def page_view_len (page_size page : Nat) : Nat :=
  (page_bounds page_size page).2 - (page_bounds page_size page).1

/-! ## Serial types and record values (cell.rs:198-314) -/

/-- `RecordSerialType` of cell.rs:231-246.  `falseT`/`trueT` stand for the
source's `False`/`True` constructors. -/
inductive RecordSerialType where
  | null | i8 | i16 | i24 | i32 | i48 | i64 | f64 | falseT | trueT
  | blob (size : Nat) | strT (size : Nat)
  | internal
deriving DecidableEq, Repr

/-- `From<i64> for RecordSerialType` (cell.rs:248-267).  The argument is
the non-negative varint value, so the `panic!` arm (negative codes) is
unreachable. -/
def serialTypeFrom (v : Nat) : RecordSerialType :=
  match v with
  | 0 => .null
  | 1 => .i8
  | 2 => .i16
  | 3 => .i24
  | 4 => .i32
  | 5 => .i48
  | 6 => .i64
  | 7 => .f64
  | 8 => .falseT
  | 9 => .trueT
  | 10 => .internal
  | 11 => .internal
  | v => if v % 2 = 0 then .blob ((v - 12) / 2) else .strT ((v - 13) / 2)

/-- `RecordValue` of cell.rs:198-211.  The integer constructors carry the
sign-extended value as `Int`; `f64` carries the raw IEEE-754 bits (no
claim touches float arithmetic or rendering). -/
inductive RecordValue where
  | null
  | i8 (v : Int) | i16 (v : Int) | i24 (v : Int) | i32 (v : Int)
  | i48 (v : Int) | i64 (v : Int)
  | f64 (bits : Nat)
  | boolean (b : Bool)
  | blob (bytes : List Nat)
  | str (s : String)
deriving DecidableEq, Repr

/-- Split `n` leading bytes off a buffer; `none` models the panic of the
`bytes::Buf` getters on underflow. -/
def takeBytes : Nat → List Nat → Option (List Nat × List Nat)
  | 0, buf => some ([], buf)
  | _ + 1, [] => none
  | n + 1, b :: rest => (takeBytes n rest).map (fun p => (b :: p.1, p.2))

/-- Big-endian value of a byte list. -/
def beVal (bs : List Nat) : Nat :=
  bs.foldl (fun a b => a * 256 + b) 0

/-- Two's-complement reading of a `w`-byte big-endian value.  This is
what `get_i8`/`get_i16`/`get_i32`/`get_i64` do, and also what the manual
sign-extension for the 24- and 48-bit forms (cell.rs:279-298) computes:
the source tests the top bit of the first byte, which for a `w`-byte
value is exactly `raw ≥ 2^(8w−1)`. -/
def signedBE (w raw : Nat) : Int :=
  if raw < 2 ^ (8 * w - 1) then (raw : Int) else (raw : Int) - 2 ^ (8 * w)

/-- Strict UTF-8 decoding, as enforced by `String::from_utf8` in
cell.rs:309: rejects stray continuation bytes, overlong encodings,
surrogates and code points above 0x10FFFF. -/
def isContByte (b : Nat) : Bool :=
  decide (0x80 ≤ b) && decide (b < 0xC0)

def utf8DecodeList : List Nat → Option (List Char)
  | [] => some []
  | b :: rest =>
    if b < 0x80 then
      (utf8DecodeList rest).map (fun cs => Char.ofNat b :: cs)
    else if b < 0xC2 then none
    else if b < 0xE0 then
      match rest with
      | c :: rest2 =>
        if isContByte c then
          (utf8DecodeList rest2).map
            (fun cs => Char.ofNat ((b - 0xC0) * 64 + (c - 0x80)) :: cs)
        else none
      | [] => none
    else if b < 0xF0 then
      match rest with
      | c :: d :: rest2 =>
        if isContByte c && isContByte d then
          let cp := (b - 0xE0) * 4096 + (c - 0x80) * 64 + (d - 0x80)
          if cp < 0x800 then none
          else if 0xD800 ≤ cp ∧ cp < 0xE000 then none
          else (utf8DecodeList rest2).map (fun cs => Char.ofNat cp :: cs)
        else none
      | _ => none
    else if b < 0xF5 then
      match rest with
      | c :: d :: e :: rest2 =>
        if isContByte c && isContByte d && isContByte e then
          let cp := (b - 0xF0) * 262144 + (c - 0x80) * 4096 +
                    (d - 0x80) * 64 + (e - 0x80)
          if cp < 0x10000 then none
          else if 0x110000 ≤ cp then none
          else (utf8DecodeList rest2).map (fun cs => Char.ofNat cp :: cs)
        else none
      | _ => none
    else none

/-- One value of `serial_types_to_record_values` (cell.rs:269-314).
Returns the decoded value and the remaining body bytes; `none` models a
panic (buffer underflow, invalid UTF-8, or the `todo!` on internal
serial types). -/
def readRecordValue (st : RecordSerialType) (buf : List Nat) :
    Option (RecordValue × List Nat) :=
  match st with
  | .null => some (.null, buf)
  | .i8 => (takeBytes 1 buf).map (fun p => (.i8 (signedBE 1 (beVal p.1)), p.2))
  | .i16 => (takeBytes 2 buf).map (fun p => (.i16 (signedBE 2 (beVal p.1)), p.2))
  | .i24 => (takeBytes 3 buf).map (fun p => (.i24 (signedBE 3 (beVal p.1)), p.2))
  | .i32 => (takeBytes 4 buf).map (fun p => (.i32 (signedBE 4 (beVal p.1)), p.2))
  | .i48 => (takeBytes 6 buf).map (fun p => (.i48 (signedBE 6 (beVal p.1)), p.2))
  | .i64 => (takeBytes 8 buf).map (fun p => (.i64 (signedBE 8 (beVal p.1)), p.2))
  | .f64 => (takeBytes 8 buf).map (fun p => (.f64 (beVal p.1), p.2))
  | .falseT => some (.boolean false, buf)
  | .trueT => some (.boolean true, buf)
  | .blob n => (takeBytes n buf).map (fun p => (.blob p.1, p.2))
  | .strT n =>
    match takeBytes n buf with
    | none => none
    | some (bs, rest) =>
      match utf8DecodeList bs with
      | none => none
      | some cs => some (.str ⟨cs⟩, rest)
  | .internal => none

/-- `serial_types_to_record_values` (cell.rs:269-314), with the body
buffer threaded through explicitly. -/
def readValues : List RecordSerialType → List Nat → Option (List RecordValue)
  | [], _ => some []
  | st :: ts, buf =>
    match readRecordValue st buf with
    | none => none
    | some (v, rest) => (readValues ts rest).map (v :: ·)

/-- The serial-type header loop shared by all cell constructors
(e.g. cell.rs:130-137): read varints until `remaining` header bytes are
consumed.  A zero-byte varint (empty buffer) would make the source loop
forever and counting below zero would make its `usize` subtraction
panic; both are modelled as `none`.  The `fuel` argument only drives the
structural recursion: each step consumes at least one header byte, so
with `fuel = remaining` at the start (see `readSerialTypes`) the
fuel-exhaustion branch is unreachable. -/
def readSerialTypesGo : Nat → List Nat → Nat → Option (List RecordSerialType × List Nat)
  | _, buf, 0 => some ([], buf)
  | 0, _, _ + 1 => none
  | fuel + 1, buf, remaining + 1 =>
    let (v, consumed) := parse_varint buf
    if consumed = 0 then none
    else if remaining + 1 < consumed then none
    else
      (readSerialTypesGo fuel (buf.drop consumed) (remaining + 1 - consumed)).map
        (fun p => (serialTypeFrom v :: p.1, p.2))

def readSerialTypes (buf : List Nat) (remaining : Nat) :
    Option (List RecordSerialType × List Nat) :=
  readSerialTypesGo remaining buf remaining

/-- The record decoding shared by `InteriorIndexCell::new` (cell.rs:124-139)
and `IndexLeafCell::new` (cell.rs:160-175): skip the payload-size varint,
read the header-size varint, collect the serial types, then decode the
body values. -/
def record_values (buf : List Nat) : Option (List RecordValue) :=
  let c1 := (parse_varint buf).2
  let buf1 := buf.drop c1
  let hs := (parse_varint buf1).1
  let c2 := (parse_varint buf1).2
  if hs < c2 then none
  else
    match readSerialTypes (buf1.drop c2) (hs - c2) with
    | none => none
    | some (ts, body) => readValues ts body

/-- `InteriorIndexCell` of cell.rs:115-119. -/
structure InteriorIndexCellS where
  left_child : Nat
  key : String
deriving DecidableEq, Repr

/-- Read a big-endian `u32` (`get_u32`). -/
def read_u32 (buf : List Nat) : Option (Nat × List Nat) :=
  (takeBytes 4 buf).map (fun p => (beVal p.1, p.2))

/-- `InteriorIndexCell::new` (cell.rs:121-150).  `none` models the panics:
buffer underflow, `left_child - 1` underflow on page number 0, a missing
or non-string first record value. -/
def InteriorIndexCell_new (buf : List Nat) : Option InteriorIndexCellS :=
  match read_u32 buf with
  | none => none
  | some (lc, rest) =>
    if lc = 0 then none
    else
      match record_values rest with
      | none => none
      | some vs =>
        match vs.head? with
        | some (.str k) => some ⟨lc - 1, k⟩
        | _ => none

/-- `IndexLeafCell` of cell.rs:152-156. -/
structure IndexLeafCellS where
  key : String
  row_id : Int
deriving DecidableEq, Repr

/-- The integer extraction of cell.rs:181-189: only the six integer
record variants yield a row_id; everything else panics. -/
def intOfRecordValue : RecordValue → Option Int
  | .i8 v => some v
  | .i16 v => some v
  | .i24 v => some v
  | .i32 v => some v
  | .i48 v => some v
  | .i64 v => some v
  | _ => none

/-- `IndexLeafCell::new` (cell.rs:158-196). -/
def IndexLeafCell_new (buf : List Nat) : Option IndexLeafCellS :=
  match record_values buf with
  | none => none
  | some vs =>
    match vs.head? with
    | some (.str k) =>
      match vs[1]? with
      | none => none
      | some v =>
        match intOfRecordValue v with
        | none => none
        | some rid => some ⟨k, rid⟩
    | _ => none

/-! ## Table B-trees (page.rs, mod.rs:292-315)

The executor reaches child pages through `self.page(page_no)`; in a
well-formed database the page graph is a tree, so the embedding replaces
each stored child page number by the child page itself.  A leaf table
page carries `LeafCell`s; an interior table page carries
`InteriorTableCell`s — `(left_child, row_id)` pairs — plus the
right-most child pointer of its header (page.rs:84-90), which leaf pages
do not have. -/

/-- `LeafCell` of cell.rs:16-22, restricted to the fields the executor
reads (`serial_types` is never consulted after construction and
`overflow_page` is the constant `None`, cell.rs:52). -/
structure LeafCellS where
  row_id : Int
  payload : List RecordValue
deriving DecidableEq, Repr

inductive TablePage where
  | leaf (cells : List LeafCellS)
  | interior (cells : List (TablePage × Int)) (rightmost : TablePage)

/-- `BTreePage::count` (page.rs:137-139): the page's own cell count. -/
def TablePage.count : TablePage → Nat
  | .leaf cells => cells.length
  | .interior cells _ => cells.length

/-- `BTreePage::right_page_pointer` (page.rs:133-135): `Some` exactly on
interior pages (page.rs:84-90). -/
def TablePage.rightPage : TablePage → Option TablePage
  | .leaf _ => none
  | .interior _ r => some r

/-- The `COUNT(*)` output of `full_table_scan` (mod.rs:171-173): it
prints `table_page.count()` of the root page and returns. -/
def count_star_output (root : TablePage) : Nat :=
  root.count

mutual

/-- `SqliteReader::traverse_rows` (mod.rs:292-315).  On a leaf page each
cell is pushed; on an interior page, for each cell the code recurses
into the cell's left child and then — inside the loop, on the shadowed
`page` binding of mod.rs:300 — into that child's own right-most pointer
when it has one.  The enclosing page's right-most pointer is never
consulted. -/
def traverse_rows : TablePage → List LeafCellS
  | .leaf cells => cells
  | .interior cells _ => traverseInteriorCells cells

def traverseInteriorCells : List (TablePage × Int) → List LeafCellS
  | [] => []
  | (child, _) :: rest =>
    traverse_rows child ++ childRightRows child ++ traverseInteriorCells rest

def childRightRows : TablePage → List LeafCellS
  | .leaf _ => []
  | .interior _ r => traverse_rows r

end

mutual

/-- The full-table-scan traversal the SPEC describes (§4.7): at an
interior page, recurse into each cell's left child in cell order and,
after all cells, once into that same page's right-most child pointer.
Stated from the spec's words, for comparison with `traverse_rows`. -/
def spec_scan : TablePage → List LeafCellS
  | .leaf cells => cells
  | .interior cells r => specScanCells cells ++ spec_scan r

def specScanCells : List (TablePage × Int) → List LeafCellS
  | [] => []
  | (child, _) :: rest => spec_scan child ++ specScanCells rest

end

/-! ## Index B-trees (`SqliteReader::search_index`, mod.rs:219-261)

An interior index cell carries a left child, a string key, and the
row_id that `search_index` pushes on an exact match (mod.rs:234 reads
`index_cell.row_id`; the record's second column, as in
`IndexLeafCell::new`).  A leaf index cell carries `(key, row_id)`. -/

inductive IndexPage where
  | leaf (cells : List (String × Int))
  | interior (cells : List (String × Int × IndexPage)) (rightmost : IndexPage)

/-- The leaf arm of `search_index` (mod.rs:248-258): push the row_id of
every cell whose key equals the search key, in cell order. -/
def searchLeafCells : List (String × Int) → String → List Int
  | [], _ => []
  | (key, rid) :: rest, k =>
    (if key = k then [rid] else []) ++ searchLeafCells rest k

mutual

/-- `SqliteReader::search_index` (mod.rs:219-261): collects matching
row_ids; the right-most child is searched only when no cell of the
interior page caused a left descent (`recursed_left`, mod.rs:222/241). -/
def search_index : IndexPage → String → List Int
  | .leaf cells, k => searchLeafCells cells k
  | .interior cells r, k =>
    let p := searchInteriorCells cells k
    if p.2 then p.1 else p.1 ++ search_index r k

/-- The interior loop of mod.rs:223-239: for every cell (no `break`),
descend into the left child when `search_key < key`, and push the cell's
row_id then descend when `key == search_key`; the boolean is the
`recursed_left` flag. -/
def searchInteriorCells : List (String × Int × IndexPage) → String → List Int × Bool
  | [], _ => ([], false)
  | (key, rid, child) :: rest, k =>
    let this :=
      if k < key then (search_index child k, true)
      else if key = k then (rid :: search_index child k, true)
      else ([], false)
    let restR := searchInteriorCells rest k
    (this.1 ++ restR.1, this.2 || restR.2)

end

/-- Control-flow trace of one `search_index` invocation on an interior
page: the cell indices at which a left-child descent happens. -/
def searchDescGo : List (String × Int × IndexPage) → String → Nat → List Nat
  | [], _, _ => []
  | (key, _, _) :: rest, k, i =>
    (if k < key ∨ key = k then [i] else []) ++ searchDescGo rest k (i + 1)

/-- Descent trace of `search_index` at one interior page: the indices of
the cells whose left child is descended into, and whether the right-most
child is descended (mod.rs:241-246: exactly when `recursed_left` stayed
false). -/
def search_descents (cells : List (String × Int × IndexPage)) (k : String) :
    List Nat × Bool :=
  (searchDescGo cells k 0, !(searchInteriorCells cells k).2)

/-! ## Schema catalog (schema.rs) -/

/-- `SchemaTable` of schema.rs:43-50.  `root_page` holds the stored page
number less one, as constructed at schema.rs:87. -/
structure SchemaTableS where
  sqlite_type : String
  name : String
  table_name : String
  root_page : Nat
  sql : String
deriving DecidableEq, Repr

/-- `SqliteSchema` of schema.rs:6-9: the `BTreeMap<String, SchemaTable>`,
modelled as its entry list in iteration order (ascending by `name`, the
map key). -/
structure SqliteSchemaS where
  entries : List SchemaTableS
deriving DecidableEq, Repr

/-- `SqliteSchema::tables` (schema.rs:38-40): ALL map keys, with no
filter on the entry type. -/
def SqliteSchemaS.tables (s : SqliteSchemaS) : List String :=
  s.entries.map (·.name)

/-- `SqliteSchema::fetch_table` (schema.rs:34-36): exact key lookup. -/
def fetch_table (s : SqliteSchemaS) (t : String) : Option SchemaTableS :=
  s.entries.find? (fun e => e.name = t)

/-- `SqliteSchema::fetch_index` (schema.rs:24-32): the first entry whose
`table_name` equals `t` and whose type is `"index"`; the indexed column
is never consulted. -/
def fetch_index (s : SqliteSchemaS) (t : String) : Option SchemaTableS :=
  s.entries.find? (fun e => e.table_name = t && e.sqlite_type = "index")

/-- Does `pat` match at the head of the list? -/
def leadMatch : List Char → List Char → Bool
  | [], _ => true
  | _ :: _, [] => false
  | a :: as, b :: bs => a = b && leadMatch as bs

/-- Substring containment, as `str::contains` with a string pattern. -/
def occursIn (pat : List Char) : List Char → Bool
  | [] => pat.isEmpty
  | b :: rest => leadMatch pat (b :: rest) || occursIn pat rest

/-- The `.tables` output (mod.rs:134-148, duplicated at main.rs:27-40):
every map key, in map order, except those CONTAINING the substring
`"sqlite"` anywhere; the printed line joins these with spaces.  Nothing
restricts the entry type. -/
def tables_output (s : SqliteSchemaS) : List String :=
  (SqliteSchemaS.tables s).filter (fun n => !occursIn "sqlite".toList n.toList)

/-! ## SQL statement shapes (sql.rs:11-54) -/

structure ConditionS where
  column : String
  value : String
deriving DecidableEq, Repr

inductive SelectOperation where
  | count
deriving DecidableEq, Repr

structure SelectStatementS where
  operation : Option SelectOperation
  columns : List String
  table : String
  where_clause : Option ConditionS
deriving DecidableEq, Repr

structure ColumnDefinitionS where
  name : String
  datatype : String
  constraints : List String
deriving DecidableEq, Repr

/-! ## Query dispatch (`SqliteReader::query`, mod.rs:151-167) -/

inductive QueryPath where
  | errNoTable (msg : String)
  | indexScan (idx : SchemaTableS)
  | fullScan
deriving DecidableEq, Repr

/-- The dispatch of mod.rs:155-166: unknown table → the error branch;
otherwise index scan iff a `where` clause is present and `fetch_index`
finds ANY index on the table; otherwise full scan. -/
def query_dispatch (s : SqliteSchemaS) (stmt : SelectStatementS) : QueryPath :=
  match fetch_table s stmt.table with
  | none => .errNoTable ("error: no such table '" ++ stmt.table ++ "'")
  | some _ =>
    match stmt.where_clause with
    | some _ =>
      match fetch_index s stmt.table with
      | some idx => .indexScan idx
      | none => .fullScan
    | none => .fullScan

/-- The `Result<()>` a caller of `query` observes. -/
inductive ProcResult where
  | ok
  | err
deriving DecidableEq, Repr

structure QueryEffect where
  stderrLines : List String
  result : ProcResult
deriving DecidableEq, Repr

/-- Effect of `SqliteReader::query` when the table lookup fails
(mod.rs:155-158): the error line goes to stderr and the method returns
`Ok(())`.  `none` when the table exists (the scans' effects are not what
this claim is about).  Note main.rs never calls `query` at all. -/
def query_unknown_table_effect (s : SqliteSchemaS) (stmt : SelectStatementS) :
    Option QueryEffect :=
  match fetch_table s stmt.table with
  | none => some ⟨["error: no such table '" ++ stmt.table ++ "'"], .ok⟩
  | some _ => none

/-- The table check in main.rs's SQL arm (main.rs:45-47):
`assert!(table.is_some())` — an unknown table aborts through a failed
assertion (a panic message, not the error line of `query`). -/
inductive MainSqlOutcome where
  | panicked
  | proceeds
deriving DecidableEq, Repr

def main_sql_table_check (s : SqliteSchemaS) (stmt : SelectStatementS) :
    MainSqlOutcome :=
  match fetch_table s stmt.table with
  | none => .panicked
  | some _ => .proceeds

def trimSpaces (cs : List Char) : List Char :=
  ((cs.dropWhile (· = ' ')).reverse.dropWhile (· = ' ')).reverse

/-- Modelled from the spec: §4.5's `CREATE INDEX <ident> ON <ident> '('
<ident> ')'` grammar is absent from src (sql.rs:178-204 parses only
`CREATE TABLE`), so the indexed column of an index's DDL is extracted
here per the spec's grammar: the identifier between the parentheses. -/
def create_index_column (sql : String) : Option String :=
  let rest := (sql.toList.dropWhile (· ≠ '(')).drop 1
  if rest.any (· = ')') then some ⟨trimSpaces (rest.takeWhile (· ≠ ')'))⟩
  else none

/-! ## Row projection (`LeafCell::query_row`, cell.rs:56-93) -/

/-- `Display for RecordValue` (cell.rs:213-229).  The `F64` arm's float
formatting is not modelled (no claim touches it). -/
def RecordValue.display : RecordValue → String
  | .null => "null"
  | .i8 v => toString v
  | .i16 v => toString v
  | .i24 v => toString v
  | .i32 v => toString v
  | .i48 v => toString v
  | .i64 v => toString v
  | .f64 _ => "<float>"
  | .boolean b => toString b
  | .blob bytes => "blob (" ++ toString bytes.length ++ " bytes)"
  | .str s => s

/-- `schema_cols.iter().position(|c| c.name == name)` (cell.rs:65/76). -/
def colPosition (cols : List ColumnDefinitionS) (name : String) : Option Nat :=
  cols.findIdx? (fun c => c.name = name)

/-- One projected column (cell.rs:80-89): the row_id is substituted
exactly when the stored value is NULL and the REQUESTED NAME is `"id"`
(the `// Temporary` check of cell.rs:81-82); the declared type and
constraints play no part. -/
def render_col (cell : LeafCellS) (v : RecordValue) (s_col : String) : String :=
  if v = .null ∧ s_col = "id" then toString cell.row_id else v.display

/-- The projection loop of cell.rs:75-90, producing the rendered parts
(joined with `"|"` by the caller).  Outer `none` models the
`self.payload[idx]` panic on an out-of-range index. -/
def project_loop (cell : LeafCellS) (schema_cols : List ColumnDefinitionS) :
    List String → Option (Except String (List String))
  | [] => some (.ok [])
  | s :: rest =>
    match colPosition schema_cols s with
    | none => some (.error ("error: no such column '" ++ s ++ "'"))
    | some idx =>
      match cell.payload.get? idx with
      | none => none
      | some v =>
        match project_loop cell schema_cols rest with
        | some (.ok parts) => some (.ok (render_col cell v s :: parts))
        | other => other

/-- `LeafCell::query_row` (cell.rs:56-93): the optional condition is
checked first against the stringified stored value (a mismatch yields
`Ok("")`, which the caller drops); then the requested columns are
rendered and joined with `"|"`. -/
def query_row (cell : LeafCellS) (search_cols : List String)
    (schema_cols : List ColumnDefinitionS) (condition : Option ConditionS) :
    Option (Except String String) :=
  let proj :=
    (project_loop cell schema_cols search_cols).map
      (fun e => e.map (String.intercalate "|"))
  match condition with
  | none => proj
  | some cond =>
    match colPosition schema_cols cond.column with
    | none => some (.error ("error: no such column '" ++ cond.column ++ "'"))
    | some idx =>
      match cell.payload.get? idx with
      | none => none
      | some v => if v.display ≠ cond.value then some (.ok "") else proj

/-! ## Concrete fixtures used by the claim theorems -/

def leafA : LeafCellS := ⟨1, [.str "x"]⟩
def leafB : LeafCellS := ⟨2, [.str "y"]⟩
def leafC : LeafCellS := ⟨3, [.str "z"]⟩

/-- A two-level table B-tree: an interior root with a single cell whose
left child is a leaf holding rows 1 and 2, and whose right-most child
pointer leads to a leaf holding row 3. -/
def twoLevelTree : TablePage :=
  .interior [(.leaf [leafA, leafB], 2)] (.leaf [leafC])

def appleTable : SchemaTableS :=
  ⟨"table", "apples", "apples", 1,
   "CREATE TABLE apples (id integer primary key, name text, color text)"⟩

/-- A table whose name contains `"sqlite"` as an inner substring without
beginning with `"sqlite_"`. -/
def sqliteLikeTable : SchemaTableS :=
  ⟨"table", "asqlitez", "asqlitez", 4,
   "CREATE TABLE asqlitez (id integer primary key)"⟩

def colorIndex : SchemaTableS :=
  ⟨"index", "idx_color", "apples", 3, "CREATE INDEX idx_color ON apples (color)"⟩

/-- Entry list in `BTreeMap` key order: `"apples" < "asqlitez" < "idx_color"`. -/
def exSchema : SqliteSchemaS := ⟨[appleTable, sqliteLikeTable, colorIndex]⟩

/-- `SELECT id FROM apples WHERE name = 'Fuji'` — the only index on
`apples` is on column `color`, not `name`. -/
def nameFilterStmt : SelectStatementS := ⟨none, ["id"], "apples", some ⟨"name", "Fuji"⟩⟩

/-- `SELECT name FROM oranges` — no such table in `exSchema`. -/
def noTableStmt : SelectStatementS := ⟨none, ["name"], "oranges", none⟩

def idxLeafEmpty : IndexPage := .leaf []

/-- Cells of an interior index page with keys `"b"` and `"d"`. -/
def exIndexCells : List (String × Int × IndexPage) :=
  [("b", 10, idxLeafEmpty), ("d", 20, idxLeafEmpty)]

/-! ## C9 — varint decoding -/

/-- Bounds on the varint loop counter: the count never decreases, grows
by at most `9 − i` and at most the bytes available, and grows by at
least one on a nonempty buffer. -/
theorem varintGo_bounds : ∀ (buf : List Nat) (i acc c : Nat), i ≤ 8 →
    c ≤ (varintGo buf i acc c).2 ∧
    (varintGo buf i acc c).2 ≤ c + (9 - i) ∧
    (varintGo buf i acc c).2 ≤ c + buf.length ∧
    (buf ≠ [] → c + 1 ≤ (varintGo buf i acc c).2)
  | [], i, acc, c, _ => by simp [varintGo]
  | b :: rest, i, acc, c, h => by
    simp only [varintGo]
    split
    · simp; omega
    next hi =>
      split
      · simp; omega
      next hb =>
        have IH := varintGo_bounds rest (i + 1)
          ((acc <<< 7) ||| (b &&& 0x7f)) (c + 1) (by omega)
        obtain ⟨h1, h2, h3, _⟩ := IH
        exact ⟨by omega, by omega, by simp only [List.length_cons]; omega,
          fun _ => by omega⟩

/-- C9: the claim is FALSE as stated.  Counterexample: decoding the
empty buffer — truncated input — does not fail: `parse_varint` is total
and returns `(0, 0)`, whose byte count 0 lies outside `1..=9`.  (No
`DecodeTruncated` error exists anywhere in the source.) -/
theorem parse_varint_empty_no_failure :
  parse_varint [] = (0, 0) ∧
    ¬(1 ≤ (parse_varint []).2 ∧ (parse_varint []).2 ≤ 9) := by decide

/-- C9 (amended): decoding a varint never fails; it returns
`(value, bytes_consumed)` with `bytes_consumed ∈ 1..=9` whenever the
buffer is nonempty (and `bytes_consumed ≤ buffer length`, so a buffer
that ends mid-varint silently yields the bits read so far); only the
empty buffer yields `bytes_consumed = 0`. -/
theorem parse_varint_consumed_in_range (buf : List Nat) (h : buf ≠ []) :
    1 ≤ (parse_varint buf).2 ∧ (parse_varint buf).2 ≤ 9 ∧
      (parse_varint buf).2 ≤ buf.length := by
  have hb := varintGo_bounds buf 0 0 0 (by omega)
  obtain ⟨_, h2, h3, h4⟩ := hb
  exact ⟨h4 h, by simpa using h2, by simpa using h3⟩

theorem parse_varint_consumed_in_range_witness :
    1 ≤ (parse_varint [5]).2 ∧ (parse_varint [5]).2 ≤ 9 ∧
      (parse_varint [5]).2 ≤ [5].length :=
  parse_varint_consumed_in_range [5] (by decide)

/-! ## C7 — pager byte views -/

/-- C7: the claim is FALSE as stated.  The pager is zero-indexed and the
first page's byte view EXCLUDES the 100-byte database header: with
`page_size = 4096` and an 8192-byte file, the view of page 0 is valid
yet only 3996 bytes long (not `page_size`), starting at file offset 100
(so page 0's B-tree header sits at view offset 0, not 100); the view of
page 1 is the second page, which does not contain the header either. -/
theorem page_zero_view_short_and_headerless :
  page_valid 8192 4096 0 ∧
    page_view_len 4096 0 = 3996 ∧
    page_view_len 4096 0 ≠ 4096 ∧
    (page_bounds 4096 0).1 = 100 ∧
    page_bounds 4096 1 = (4096, 8192) := by
  unfold page_valid page_view_len page_bounds
  decide

/-- C7 (amended): `page` is zero-indexed; for every `page ≥ 1` the view
is exactly `page_size` bytes at offset `page · page_size`, while page 0's
view starts at offset 100 — just past the database header, which is thus
not included — and is `page_size − 100` bytes, placing page 0's B-tree
header at offset 0 of the returned view. -/
theorem page_view_bounds_spec (page_size page : Nat) (h : 1 ≤ page) :
    page_bounds page_size page = (page * page_size, (page + 1) * page_size) ∧
      page_view_len page_size page = page_size ∧
      page_bounds page_size 0 = (100, page_size) ∧
      page_view_len page_size 0 = page_size - 100 := by
  have hp : page ≠ 0 := by omega
  refine ⟨?_, ?_, ?_, ?_⟩ <;>
    simp [page_view_len, page_bounds, hp, Nat.succ_mul, Nat.add_sub_cancel_left]

theorem page_view_bounds_spec_witness :
    page_bounds 4096 2 = (2 * 4096, (2 + 1) * 4096) ∧
      page_view_len 4096 2 = 4096 ∧
      page_bounds 4096 0 = (100, 4096) ∧
      page_view_len 4096 0 = 4096 - 100 :=
  page_view_bounds_spec 4096 2 (by decide)

/-! ## C1 — COUNT(*) -/

/-- C1: the code is WRONG on multi-level trees.  On `twoLevelTree` —
three leaf cells across two leaves under an interior root — the
`COUNT(*)` branch of `full_table_scan` prints the root page's own cell
count, 1, whereas the sum of leaf-cell counts across the tree (the
spec-mandated traversal result) is 3.  The two agree only when the root
is itself a leaf. -/
theorem count_star_is_root_cell_count :
  count_star_output twoLevelTree = 1 ∧
    (spec_scan twoLevelTree).length = 3 ∧
    (∀ cells, count_star_output (.leaf cells) = (spec_scan (.leaf cells)).length) := by
  refine ⟨rfl, ?_, ?_⟩
  · simp [twoLevelTree, spec_scan, specScanCells, leafA, leafB, leafC]
  · intro cells
    simp [count_star_output, TablePage.count, spec_scan]

/-! ## C2 — full-table-scan traversal -/

/-- C2: the code is WRONG.  `traverse_rows` recurses into each child's
own right-most pointer inside the cell loop (through the shadowed `page`
binding of mod.rs:300) and never into the argument page's right-most
pointer, so on `twoLevelTree` the scan returns only rows 1 and 2 and
drops row 3 — the root's right-most subtree — while the spec's
depth-first traversal yields all three rows in ascending row_id order. -/
theorem traverse_rows_drops_root_rightmost_subtree :
  traverse_rows twoLevelTree = [leafA, leafB] ∧
    spec_scan twoLevelTree = [leafA, leafB, leafC] ∧
    leafC ∉ traverse_rows twoLevelTree := by
  refine ⟨?_, ?_, ?_⟩ <;>
    simp [twoLevelTree, traverse_rows, traverseInteriorCells, childRightRows,
      spec_scan, specScanCells, leafA, leafB, leafC]

/-! ## C3 — the `.tables` catalog listing -/

/-- C3: the claim is FALSE as stated.  `SqliteSchema::tables` returns
every schema-map key with no filter on the entry type, and the `.tables`
command then excludes names CONTAINING the substring `"sqlite"`: on
`exSchema` the output lists `idx_color`, the name of an entry of type
`"index"`, and silently drops the user table `asqlitez` (which merely
contains `"sqlite"` inside its name). -/
theorem tables_output_lists_index_entries :
  tables_output exSchema = ["apples", "idx_color"] ∧
    colorIndex ∈ exSchema.entries ∧
    colorIndex.sqlite_type = "index" ∧
    colorIndex.name ∈ tables_output exSchema ∧
    sqliteLikeTable.sqlite_type = "table" ∧
    sqliteLikeTable.name ∉ tables_output exSchema := by decide

/-- C3 (amended): `tables()` returns the names of ALL schema entries
regardless of type, and `.tables` prints exactly those names that do not
contain the substring `"sqlite"` anywhere — entries of type `"index"`
included. -/
theorem tables_output_characterization (s : SqliteSchemaS) (n : String) :
    n ∈ tables_output s ↔
      (∃ e ∈ s.entries, e.name = n) ∧
        occursIn "sqlite".toList n.toList = false := by
  simp [tables_output, SqliteSchemaS.tables, List.mem_filter, List.mem_map,
    Bool.not_eq_true']

/-! ## C4 — unknown-table error path -/

/-- C4: the claim is FALSE as stated.  `SqliteReader::query` does print
`error: no such table 'oranges'` to stderr, but then `return Ok(())` —
its caller would exit with status zero, not nonzero.  (The binary's
`main` never calls `query` at all: its SQL arm runs
`assert!(table.is_some())` and panics on an unknown table without
printing the error line.) -/
theorem query_unknown_table_exits_ok :
  query_unknown_table_effect exSchema noTableStmt =
      some ⟨["error: no such table 'oranges'"], ProcResult.ok⟩ ∧
    ProcResult.ok ≠ ProcResult.err ∧
    main_sql_table_check exSchema noTableStmt = .panicked := by decide

/-- C4 (amended): for every SELECT whose table is not in the catalog,
`SqliteReader::query` prints the single line `error: no such table '<t>'`
to stderr and returns `Ok(())`, i.e. success — the process exit status
signals no error on this path. -/
theorem query_unknown_table_effect_spec (s : SqliteSchemaS)
    (stmt : SelectStatementS) (h : fetch_table s stmt.table = none) :
    query_unknown_table_effect s stmt =
      some ⟨["error: no such table '" ++ stmt.table ++ "'"], ProcResult.ok⟩ := by
  simp [query_unknown_table_effect, h]

theorem query_unknown_table_effect_spec_witness :
    query_unknown_table_effect exSchema noTableStmt =
      some ⟨["error: no such table '" ++ noTableStmt.table ++ "'"], ProcResult.ok⟩ :=
  query_unknown_table_effect_spec exSchema noTableStmt (by decide)

/-! ## C5 — index-scan dispatch -/

/-- C5: the claim is FALSE as stated.  `fetch_index` matches an index
entry by `table_name` alone, never consulting the indexed column: for
`SELECT id FROM apples WHERE name = 'Fuji'`, whose filter column `name`
differs from the only index's declared column `color`, the dispatch
still takes the index-scan path instead of the claimed
full-scan-and-filter path. -/
theorem dispatch_index_scan_on_mismatched_column :
  query_dispatch exSchema nameFilterStmt = .indexScan colorIndex ∧
    create_index_column colorIndex.sql = some "color" ∧
    nameFilterStmt.where_clause = some ⟨"name", "Fuji"⟩ ∧
    ("color" : String) ≠ "name" := by decide

/-- C5 (amended): with the table present and a `WHERE` clause given, the
index-scan path is taken iff SOME schema entry of type `"index"` has
`table_name` equal to the queried table — whatever column that index is
declared on. -/
theorem dispatch_index_scan_iff (s : SqliteSchemaS) (stmt : SelectStatementS)
    (t : SchemaTableS) (c : ConditionS)
    (h1 : fetch_table s stmt.table = some t)
    (h2 : stmt.where_clause = some c) :
    (∃ idx, query_dispatch s stmt = .indexScan idx) ↔
      ∃ e ∈ s.entries, e.table_name = stmt.table ∧ e.sqlite_type = "index" := by
  simp only [query_dispatch, h1, h2]
  cases hfi : fetch_index s stmt.table with
  | none =>
    simp only [hfi]
    constructor
    · rintro ⟨idx, hidx⟩
      exact absurd hidx (by simp)
    · rintro ⟨e, he, ht, hy⟩
      have := List.find?_eq_none.mp hfi e he
      simp [ht, hy] at this
  | some idx =>
    simp only [hfi]
    constructor
    · rintro _
      have hmem := List.mem_of_find?_eq_some hfi
      have hp := List.find?_some hfi
      simp only [Bool.and_eq_true, decide_eq_true_eq] at hp
      exact ⟨idx, hmem, hp.1, hp.2⟩
    · intro _
      exact ⟨idx, rfl⟩

theorem dispatch_index_scan_iff_witness :
    (∃ idx, query_dispatch exSchema nameFilterStmt = .indexScan idx) ↔
      ∃ e ∈ exSchema.entries,
        e.table_name = nameFilterStmt.table ∧ e.sqlite_type = "index" :=
  dispatch_index_scan_iff exSchema nameFilterStmt appleTable ⟨"name", "Fuji"⟩
    (by decide) (by decide)

/-! ## C6 — index-descent control flow -/

/-- C6: the claim is FALSE as stated.  The interior loop of
`search_index` has no `break`: searching for `"a"` on an interior page
with keys `"b", "d"`, the first cell already satisfies
`search_key < key`, yet the loop goes on to examine the second cell and
descends into ITS left child as well — the trace records descents at
indices 0 AND 1 (and, correctly, no right-most descent). -/
theorem search_index_continues_after_less :
  search_descents exIndexCells "a" = ([0, 1], false) := by
  simp [search_descents, searchDescGo, searchInteriorCells, search_index,
    searchLeafCells, exIndexCells, idxLeafEmpty]
  decide

theorem searchDescGo_mem (cells : List (String × Int × IndexPage))
    (k : String) : ∀ (s i : Nat),
    i ∈ searchDescGo cells k s ↔
      ∃ j c, i = s + j ∧ cells.get? j = some c ∧ (k < c.1 ∨ c.1 = k) := by
  induction cells with
  | nil => intro s i; simp [searchDescGo]
  | cons hd rest ih =>
    intro s i
    obtain ⟨key, rid, child⟩ := hd
    have hstep : searchDescGo ((key, rid, child) :: rest) k s =
        (if k < key ∨ key = k then [s] else []) ++ searchDescGo rest k (s + 1) := rfl
    rw [hstep, List.mem_append, ih (s + 1) i]
    by_cases htrig : k < key ∨ key = k
    · rw [if_pos htrig]
      constructor
      · rintro (h | ⟨j, c, rfl, hg, ht⟩)
        · have hi : i = s := by simpa using h
          exact ⟨0, (key, rid, child), by omega, rfl, htrig⟩
        · exact ⟨j + 1, c, by omega, by simpa using hg, ht⟩
      · rintro ⟨j, c, hij, hg, ht⟩
        cases j with
        | zero =>
          left
          simp only [List.mem_singleton]
          omega
        | succ j' =>
          right
          exact ⟨j', c, by omega, by simpa using hg, ht⟩
    · rw [if_neg htrig]
      constructor
      · rintro (h | ⟨j, c, rfl, hg, ht⟩)
        · simp at h
        · exact ⟨j + 1, c, by omega, by simpa using hg, ht⟩
      · rintro ⟨j, c, hij, hg, ht⟩
        cases j with
        | zero =>
          exfalso
          simp only [List.get?_cons_zero, Option.some.injEq] at hg
          subst hg
          exact htrig ht
        | succ j' =>
          right
          exact ⟨j', c, by omega, by simpa using hg, ht⟩

theorem searchInteriorCells_flag (cells : List (String × Int × IndexPage))
    (k : String) :
    (searchInteriorCells cells k).2 = true ↔
      ∃ c ∈ cells, (k < c.1 ∨ c.1 = k) := by
  induction cells with
  | nil => simp [searchInteriorCells]
  | cons hd rest ih =>
    obtain ⟨key, rid, child⟩ := hd
    have hstep : searchInteriorCells ((key, rid, child) :: rest) k =
        ((if k < key then (search_index child k, true)
          else if key = k then (rid :: search_index child k, true)
          else ([], false)).1 ++ (searchInteriorCells rest k).1,
         (if k < key then (search_index child k, true)
          else if key = k then (rid :: search_index child k, true)
          else ([], false)).2 || (searchInteriorCells rest k).2) := by
      simp [searchInteriorCells]
    rw [hstep]
    by_cases h1 : k < key
    · rw [if_pos h1]
      exact ⟨fun _ => ⟨(key, rid, child), List.mem_cons_self _ _, Or.inl h1⟩,
        fun _ => rfl⟩
    · rw [if_neg h1]
      by_cases h2 : key = k
      · rw [if_pos h2]
        exact ⟨fun _ => ⟨(key, rid, child), List.mem_cons_self _ _, Or.inr h2⟩,
          fun _ => rfl⟩
      · rw [if_neg h2]
        constructor
        · intro h
          rcases ih.mp h with ⟨c, hc, ht⟩
          exact ⟨c, List.mem_cons_of_mem _ hc, ht⟩
        · rintro ⟨c, hc, ht⟩
          rcases List.mem_cons.mp hc with hce | hc'
          · subst hce
            rcases ht with ht | ht
            · exact absurd ht h1
            · exact absurd ht h2
          · exact ih.mpr ⟨c, hc', ht⟩

/-- C6 (amended): the loop never stops early — the left child of EVERY
cell with `search_key < key` or `key = search_key` is descended into,
whatever came before it — and the right-most child is descended exactly
when no cell of the page triggered a left descent. -/
theorem search_descents_characterization
    (cells : List (String × Int × IndexPage)) (k : String) (i : Nat) :
    (i ∈ (search_descents cells k).1 ↔
        ∃ c, cells.get? i = some c ∧ (k < c.1 ∨ c.1 = k)) ∧
      ((search_descents cells k).2 = true ↔
        ∀ c ∈ cells, ¬(k < c.1 ∨ c.1 = k)) := by
  constructor
  · rw [search_descents]
    rw [searchDescGo_mem cells k 0 i]
    constructor
    · rintro ⟨j, c, rfl, hg, ht⟩
      exact ⟨c, by simpa using hg, ht⟩
    · rintro ⟨c, hg, ht⟩
      exact ⟨i, c, by omega, hg, ht⟩
  · rw [search_descents]
    simp only [Bool.not_eq_true']
    rw [← Bool.not_eq_true, searchInteriorCells_flag]
    push_neg
    simp

/-! ## C8 — row_id substitution on projection -/

/-- C8: the claim is FALSE as stated.  The substitution check of
cell.rs:82 is `value == Null && s_col == "id"` — it keys on the column
NAME, not the `INTEGER PRIMARY KEY` declaration: a NULL slot in a column
declared `integer primary key` but named `key` is emitted as `null`
(row_id 7 is not substituted), while a NULL slot in a column named `id`
with no such declaration at all is emitted as the row_id `5`. -/
theorem rowid_substitution_keyed_on_name :
  query_row ⟨7, [.null, .str "x"]⟩ ["key"]
      [⟨"key", "integer", ["primary key"]⟩, ⟨"name", "text", []⟩] none
      = some (.ok "null") ∧
    query_row ⟨5, [.null]⟩ ["id"] [⟨"id", "text", []⟩] none
      = some (.ok "5") := ⟨rfl, rfl⟩

/-- C8 (amended): whenever the projected column's record slot is NULL,
the emitted value is the cell's row_id exactly when the requested name
is the literal string `"id"`, for EVERY declaration (datatype and
constraints are free here and never consulted): otherwise `null` is
emitted. -/
theorem query_row_null_substitution_by_name (cell : LeafCellS)
    (cols : List ColumnDefinitionS) (s : String) (idx : Nat)
    (h1 : colPosition cols s = some idx)
    (h2 : cell.payload.get? idx = some .null) :
    query_row cell [s] cols none =
      some (.ok (if s = "id" then toString cell.row_id else "null")) := by
  simp only [query_row, project_loop, h1, h2]
  simp only [Option.map_some, Except.map]
  by_cases hs : s = "id" <;>
    simp [hs, render_col, RecordValue.display, String.intercalate] <;> rfl

theorem query_row_null_substitution_by_name_witness :
    query_row ⟨5, [.null, .str "q"]⟩ ["id"]
        [⟨"id", "text", []⟩, ⟨"name", "text", []⟩] none =
      some (.ok (if "id" = "id"
        then toString (LeafCellS.mk 5 [.null, .str "q"]).row_id else "null")) :=
  query_row_null_substitution_by_name ⟨5, [.null, .str "q"]⟩
    [⟨"id", "text", []⟩, ⟨"name", "text", []⟩] "id" 0 (by decide) (by decide)

/-! ## C10 — index cells carry string keys -/

/-- C10: CONFIRMED.  Every successfully decoded interior index cell owes
its key to a first record value that is a UTF-8 string, and decoding
fails (the source panics) when the first record value is anything else;
every successfully decoded leaf index cell additionally takes its row_id
from a second record value of one of the six integer forms, and decoding
fails when that value is not an integer.  Only string-keyed indexes can
therefore ever be searched. -/
theorem index_cells_are_string_keyed :
  (∀ buf c, InteriorIndexCell_new buf = some c →
    ∃ lc rest vs, read_u32 buf = some (lc, rest) ∧
      record_values rest = some vs ∧ vs.head? = some (.str c.key)) ∧
  (∀ buf lc rest vs, read_u32 buf = some (lc, rest) → lc ≠ 0 →
    record_values rest = some vs →
    (∀ t, vs.head? ≠ some (.str t)) →
    InteriorIndexCell_new buf = none) ∧
  (∀ buf c, IndexLeafCell_new buf = some c →
    ∃ vs v, record_values buf = some vs ∧ vs.head? = some (.str c.key) ∧
      vs[1]? = some v ∧ intOfRecordValue v = some c.row_id) ∧
  (∀ buf vs v, record_values buf = some vs → vs[1]? = some v →
    intOfRecordValue v = none → IndexLeafCell_new buf = none) := by
  refine ⟨?_, ?_, ?_, ?_⟩
  · intro buf c h
    unfold InteriorIndexCell_new at h
    cases heq : read_u32 buf with
    | none =>
      simp only [heq] at h
      exact Option.noConfusion h
    | some pr =>
      obtain ⟨lc, rest⟩ := pr
      simp only [heq] at h
      by_cases hlc : lc = 0
      · simp only [if_pos hlc] at h
        exact Option.noConfusion h
      · simp only [if_neg hlc] at h
        cases hvs : record_values rest with
        | none =>
          simp only [hvs] at h
          exact Option.noConfusion h
        | some vs =>
          simp only [hvs] at h
          cases hh : vs.head? with
          | none =>
            simp only [hh] at h
            exact Option.noConfusion h
          | some w =>
            cases w <;> (try simp only [hh] at h) <;>
              (try exact Option.noConfusion h)
            rename_i t
            cases h
            exact ⟨lc, rest, vs, rfl, hvs, hh⟩
  · intro buf lc rest vs heq hlc hvs hns
    simp only [InteriorIndexCell_new, heq, if_neg hlc, hvs]
  · intro buf c h
    unfold IndexLeafCell_new at h
    cases hvs : record_values buf with
    | none =>
      simp only [hvs] at h
      exact Option.noConfusion h
    | some vs =>
      simp only [hvs] at h
      cases hh : vs.head? with
      | none =>
        simp only [hh] at h
        exact Option.noConfusion h
      | some w =>
        cases w <;> (try simp only [hh] at h) <;>
          (try exact Option.noConfusion h)
        rename_i t
        cases hv : vs[1]? with
        | none =>
          try simp only [hv] at h
          exact Option.noConfusion h
        | some v =>
          simp only [hv] at h
          cases hni : intOfRecordValue v with
          | none =>
            try simp only [hni] at h
            exact Option.noConfusion h
          | some rid =>
            simp only [hni] at h
            cases h
            exact ⟨vs, v, rfl, hh, hv, hni⟩
  · intro buf vs v hvs hv1 hni
    simp only [IndexLeafCell_new, hvs]
    cases hh : vs.head? with
    | none => simp [hh]
    | some w =>
      cases w <;> simp [hh, hv1, hni]

theorem index_cells_are_string_keyed_witness :
    (∃ lc rest vs, read_u32 [0, 0, 0, 2, 4, 2, 15, 97] = some (lc, rest) ∧
      record_values rest = some vs ∧
      vs.head? = some (.str (InteriorIndexCellS.mk 1 "a").key)) ∧
    (∃ vs v, record_values [6, 3, 15, 1, 98, 7] = some vs ∧
      vs.head? = some (.str (IndexLeafCellS.mk "b" 7).key) ∧
      vs[1]? = some v ∧
      intOfRecordValue v = some (IndexLeafCellS.mk "b" 7).row_id) :=
  ⟨index_cells_are_string_keyed.1 [0, 0, 0, 2, 4, 2, 15, 97] ⟨1, "a"⟩ (by decide),
   index_cells_are_string_keyed.2.2.1 [6, 3, 15, 1, 98, 7] ⟨"b", 7⟩ (by decide)⟩

end SqliteReader
